import Mathlib

/-!
Verification development for the DotNetToPython LlamaServer repository.

Strings are modelled as `List Char`; the Python string operations the code uses
(`endswith`, slicing, `strip`, `in`, `split(sep, 1)`) are embedded below as
executable list functions.  Fallible Python code is modelled with `Except`,
where an `Except.error` value stands for a raised exception.
-/

/-- The whitespace characters removed by Python `str.strip()` (ASCII range). -/
def isPySpace (c : Char) : Bool :=
  c == ' ' || c == '\t' || c == '\n' || c == '\r' || c == '\x0b' || c == '\x0c'

/-- Embedding of Python `str.strip()`: drop whitespace from both ends. -/
def pyStrip (s : List Char) : List Char :=
  ((s.dropWhile isPySpace).reverse.dropWhile isPySpace).reverse

/-- Does `s` start with the pattern `p`?  (`p` is the first argument.) -/
def listStartsWith : List Char → List Char → Bool
  | [], _ => true
  | _ :: _, [] => false
  | p :: ps, c :: cs => p == c && listStartsWith ps cs

/-- Embedding of Python `s.endswith(suffix)`. -/
def listEndsWith (suffix s : List Char) : Bool :=
  decide (suffix.length ≤ s.length) && s.drop (s.length - suffix.length) == suffix

/-- The suffix of `s` after the first (leftmost) occurrence of `m`, or `none` when
`m` does not occur in `s`.  This is Python `s.split(m, 1)[1]` guarded by `m in s`. -/
def afterFirst (m : List Char) : List Char → Option (List Char)
  | [] => if m == [] then some [] else none
  | c :: cs =>
    if listStartsWith m (c :: cs) then some ((c :: cs).drop m.length)
    else afterFirst m cs

/-- Embedding of the Python membership test `m in s` (substring occurrence). -/
def occursIn (m s : List Char) : Bool :=
  (afterFirst m s).isSome

/-- The end-of-sequence token removed by `format_output_from_llama`. -/
def eot_token : List Char := "<|end_of_text|>".data

/-- The assistant-segment marker searched for by `format_output_from_llama`. -/
def assistant_keyword : List Char := "<|start_header_id|>assistant<|end_header_id|>".data

/-- The first step of `format_output_from_llama` (llama_service.py lines 113-116):
if the raw output ends with `<|end_of_text|>`, remove that token and strip
whitespace; otherwise the raw output is left unchanged. -/
def eotStripped (llama_output : List Char) : List Char :=
  if listEndsWith eot_token llama_output then
    pyStrip (llama_output.take (llama_output.length - eot_token.length))
  else llama_output

/-- Embedding of `format_output_from_llama` (identical in llama_service.py lines
103-123 and rag_prompt_processor.py lines 72-83).  The Python membership test
`assistant_keyword in llama_output` followed by `split(assistant_keyword, 1)[1]`
is rendered by `afterFirst`, which is `none` exactly when the keyword does not
occur. -/
def format_output_from_llama (llama_output : List Char) : List Char :=
  match afterFirst assistant_keyword (eotStripped llama_output) with
  | some rest => pyStrip rest
  | none => eotStripped llama_output

/-- Word characters for the regex word boundary `\b` (ASCII fragment of Python `\w`). -/
def isWordChar (c : Char) : Bool :=
  c.isAlphanum || c == '_'

/-- Is the character before the current position (if any) a non-word character?
`none` stands for the start of the string, which is a word boundary. -/
def nonWordBefore : Option Char → Bool
  | none => true
  | some c => !isWordChar c

/-- Is the first character of the remainder (if any) a non-word character?
An empty remainder is the end of the string, which is a word boundary. -/
def nonWordHead : List Char → Bool
  | [] => true
  | c :: _ => !isWordChar c

/-- Does `\byes\b` (case-insensitive) match at the current position?  `prev` is the
character immediately before the position (`none` at the start of the string). -/
def yesAt (prev : Option Char) : List Char → Bool
  | y :: e :: z :: rest =>
    (y.toLower == 'y' && e.toLower == 'e' && z.toLower == 's')
      && nonWordBefore prev && nonWordHead rest
  | _ => false

/-- Left-to-right scan for a match of `\byes\b`, carrying the previous character. -/
def searchYesFrom (prev : Option Char) : List Char → Bool
  | [] => false
  | c :: cs => yesAt prev (c :: cs) || searchYesFrom (some c) cs

/-- Embedding of `re.search(r"\byes\b", result, re.IGNORECASE) is not None`
(llama_service.py line 199): the string contains "yes" as a whole word,
case-insensitively. -/
def reSearchYes (result : List Char) : Bool :=
  searchYesFrom none result

/-- The specification-level statement of the verification outcome: the reply
contains the token "yes" as a whole word (no word character on either side),
matched case-insensitively. -/
def ContainsWholeWordYes (s : List Char) : Prop :=
  ∃ a y e z b, s = a ++ y :: e :: z :: b
    ∧ y.toLower = 'y' ∧ e.toLower = 'e' ∧ z.toLower = 's'
    ∧ (∀ c, a.getLast? = some c → isWordChar c = false)
    ∧ (∀ c, b.head? = some c → isWordChar c = false)

/-- Embedding of `create_prompt_for_llama` (llama_service.py lines 30-50). -/
def create_prompt_for_llama (query : List Char) : List Char :=
  ("<|begin_of_text|>\n<|start_header_id|>system<|end_header_id|>\n"
    ++ "You are a helpful AI assistant. Do not make up any information. Provide a concise answer.\n\n"
    ++ "<|eot_id|>\n<|start_header_id|>user<|end_header_id|>\n").data
    ++ query
    ++ ("\n<|eot_id|>\n<|start_header_id|>assistant<|end_header_id|>").data

/-- Embedding of `create_prompt_restricted_to_context_info_for_llama`
(llama_service.py lines 52-78). -/
def create_prompt_restricted_to_context_info_for_llama
    (query context_information : List Char) : List Char :=
  ("<|begin_of_text|>\n<|start_header_id|>system<|end_header_id|>\n"
    ++ "You are a helpful AI assistant. "
    ++ "Provide one Answer ONLY based on the context provided below. "
    ++ "Do not generate or answer any other questions. "
    ++ "Do not make up or infer any information that is not directly stated in the context. "
    ++ "Provide a concise answer.  context:\n\n").data
    ++ context_information
    ++ ("<|eot_id|>\n<|start_header_id|>user<|end_header_id|>\n").data
    ++ query
    ++ ("\n<|eot_id|>\n<|start_header_id|>assistant<|end_header_id|>").data

/-- Embedding of `create_response_test_prompt_for_llama` (llama_service.py lines 80-101). -/
def create_response_test_prompt_for_llama (query text_to_check : List Char) : List Char :=
  ("<|begin_of_text|>\n<|start_header_id|>system<|end_header_id|>\n"
    ++ "Determine if the following text contains an answer to the question. Respond with \"Yes\" or \"No\".\n"
    ++ "<|start_header_id|>user<|end_header_id|>\nQuestion: ").data
    ++ query
    ++ ("\nText: ").data
    ++ text_to_check
    ++ ("\n<|start_header_id|>assistant<|end_header_id|>\nAnswer: <|end_of_text|>\n").data

/-- Embedding of `submit_prompt_to_llama` (llama_service.py lines 125-157).  The
generation engine (tokenizer, model.generate, decode) is the opaque capability
`gen`; the decoded raw output is passed through `format_output_from_llama`. -/
def submit_prompt_to_llama (gen : List Char → List Char) (input_text : List Char) : List Char :=
  format_output_from_llama (gen input_text)

/-- Embedding of `submit_query_without_context_to_llama` (llama_service.py lines 159-170). -/
def submit_query_without_context_to_llama (gen : List Char → List Char)
    (query : List Char) : List Char :=
  submit_prompt_to_llama gen (create_prompt_for_llama query)

/-- Embedding of `submit_query_with_context_to_llama` (llama_service.py lines 172-184). -/
def submit_query_with_context_to_llama (gen : List Char → List Char)
    (query context : List Char) : List Char :=
  submit_prompt_to_llama gen (create_prompt_restricted_to_context_info_for_llama query context)

/-- Embedding of `was_query_likely_answered` (llama_service.py lines 186-199):
build the verification prompt, submit it to the engine, and search the reply for
the whole-word token "yes", case-insensitively.  The Python function returns an
`Optional[re.Match]`; `true` models a non-`None` match. -/
def was_query_likely_answered (gen : List Char → List Char)
    (query reply : List Char) : Bool :=
  reSearchYes (submit_prompt_to_llama gen (create_response_test_prompt_for_llama query reply))

/-- Exception values: a Python exception is modelled by its message string. -/
def PyErr : Type := List Char

instance : DecidableEq PyErr := by
  unfold PyErr
  infer_instance

deriving instance DecidableEq for Except

/-- Embedding of the `SearchResult` TypedDict of rag_prompt_processor.py lines
118-123 (`score` is `NotRequired`, hence an `Option`; relevance scores are
modelled as rationals). -/
structure SearchResult where
  title : List Char
  url : List Char
  content : List Char
  engine : List Char
  score : Option ℚ
deriving DecidableEq

/-- Embedding of the `SearchResult` TypedDict of searxng_summarizer.py lines
70-77 (no `engine` field; `score` is `NotRequired`). -/
structure SummarizerSearchResult where
  title : List Char
  url : List Char
  content : List Char
  score : Option ℚ
deriving DecidableEq

/-- Embedding of `result.get("score", 0)` (searxng_summarizer.py line 109):
a record with no score field is treated as having score 0. -/
def scoreOrZero (r : SummarizerSearchResult) : ℚ :=
  r.score.getD 0

/-- Embedding of `search_searxng` (searxng_summarizer.py lines 91-112).  The HTTP
round trip is the opaque input `httpResult`; a request exception is re-raised
(`raise`, line 104), and otherwise the parsed `results` array is filtered by
`result.get("score", 0) >= 1.5` with the threshold 1.5 hard-coded at line 109. -/
def search_searxng (httpResult : Except PyErr (List SummarizerSearchResult)) :
    Except PyErr (List SummarizerSearchResult) :=
  match httpResult with
  | Except.error e => Except.error e
  | Except.ok results =>
    Except.ok (results.filter (fun r => decide ((3 : ℚ) / 2 ≤ scoreOrZero r)))

/-- Embedding of `fetch_search_results` (rag_prompt_processor.py lines 126-143).
The HTTP round trip is the opaque input `httpResult`; any exception is caught,
logged, and turned into the empty result list. -/
def fetch_search_results (httpResult : Except PyErr (List SearchResult)) : List SearchResult :=
  match httpResult with
  | Except.error _ => []
  | Except.ok results => results

/-- Embedding of Python `"\n".join(parts)`. -/
def joinWithNewline : List (List Char) → List Char
  | [] => []
  | [x] => x
  | x :: xs => x ++ "\n".data ++ joinWithNewline xs

/-- The exception raised by `format_search_results_for_llama` on its empty branch:
rag_prompt_processor.py line 41 calls `logging.warnr`, an attribute that does not
exist on the `logging` module. -/
def warnrAttributeError : PyErr :=
  "AttributeError: module logging has no attribute warnr".data

/-- Embedding of `format_search_results_for_llama` (rag_prompt_processor.py lines
39-45).  On an empty result list the source calls `logging.warnr(...)` (line 41),
which raises `AttributeError` before the `return ""` is reached; the nonempty
branch joins the `content` fields and prepends the header. -/
def format_search_results_for_llama (search_results : List SearchResult) :
    Except PyErr (List Char) :=
  match search_results with
  | [] => Except.error warnrAttributeError
  | _ =>
    Except.ok (("Actual RealWeb Search Results:\n").data
      ++ joinWithNewline (search_results.map (fun r => r.content))
      ++ "\n".data)

/-- Embedding of `create_system_prompt_for_llama` (rag_prompt_processor.py lines
47-70). -/
def create_system_prompt_for_llama (query search_results : List Char) : List Char :=
  ("<|start_header_id|>system<|end_header_id|>\n"
    ++ "You are a helpful and knowledgeable assistant. Your knowledge is based on data available up until October 2022. "
    ++ "For any information or events that occurred after this date, you will rely on the search results provided below. "
    ++ "Use the search results to answer the user\x27s query accurately and provide up-to-date information.\n\n"
    ++ "**Search Results:**\n").data
    ++ search_results
    ++ ("\n\nWhen responding:\n"
    ++ "1. If the user\x27s query relates to events or information after October 2022, prioritize the search results.\n"
    ++ "2. If the search results are insufficient or irrelevant, inform the user that you cannot provide an answer based on the available information.\n"
    ++ "3. Always cite the search results when using them to answer the user\x27s query.\n"
    ++ "<|eot_id|>\n<|start_header_id|>user<|end_header_id|>\n").data
    ++ query
    ++ ("\n<|eot_id|>\n<|start_header_id|>assistant<|end_header_id|>").data

/-- Embedding of `submit_prompt_with_context_to_llama` (rag_prompt_processor.py
lines 112-115); `gen` is the opaque generation engine. -/
def submit_prompt_with_context_to_llama (gen : List Char → List Char)
    (prompt context : List Char) : List Char :=
  format_output_from_llama (gen (create_system_prompt_for_llama prompt context))

/-- Embedding of `process_prompt` (rag_prompt_processor.py lines 160-173): fetch
search results, format them into a context string (which can raise, see
`format_search_results_for_llama`), then generate with that context.  An
`Except.error` value models an exception propagating out of the function. -/
def process_prompt (gen : List Char → List Char)
    (httpResult : Except PyErr (List SearchResult)) (prompt : List Char) :
    Except PyErr (List Char) :=
  match format_search_results_for_llama (fetch_search_results httpResult) with
  | Except.error e => Except.error e
  | Except.ok context => Except.ok (submit_prompt_with_context_to_llama gen prompt context)

/-- A message published to the broker by `ch.basic_publish`
(rag_prompt_processor.py lines 208-216). -/
structure PublishedMessage where
  exchange : List Char
  routing_key : List Char
  body : List Char
  correlation_id : Option (List Char)
  delivery_mode : Nat
deriving DecidableEq

/-- The environment of one inbound message delivery: the outcome of decoding the
body as UTF-8, the metadata carried by `properties`, the behaviour of
`process_prompt` for this delivery, and the outcome of the publish call.  An
`Except.error` component models that step raising an exception. -/
structure MessageContext where
  decodeResult : Except PyErr (List Char)
  reply_to : Option (List Char)
  correlation_id : Option (List Char)
  processResult : List Char → Except PyErr (List Char)
  publishResult : Except PyErr Unit

/-- Embedding of the `try`-block of `callback` (rag_prompt_processor.py lines
202-219): decode the body, process the prompt, and if a `reply_to` property is
present publish one reply stamped with the incoming `correlation_id` and
`delivery_mode=1`; with no `reply_to` the error is logged and nothing is
published.  The returned list collects the successfully published messages; an
`Except.error` value is an exception reaching the end of the `try`-block. -/
def callbackTry (ctx : MessageContext) : Except PyErr (List PublishedMessage) :=
  match ctx.decodeResult with
  | Except.error e => Except.error e
  | Except.ok prompt =>
    match ctx.processResult prompt with
    | Except.error e => Except.error e
    | Except.ok reply =>
      match ctx.reply_to with
      | some rt =>
        match ctx.publishResult with
        | Except.error e => Except.error e
        | Except.ok _ =>
          Except.ok [{ exchange := []
                       routing_key := rt
                       body := reply
                       correlation_id := ctx.correlation_id
                       delivery_mode := 1 }]
      | none => Except.ok []

/-- Embedding of `callback` (rag_prompt_processor.py lines 198-221): the
`except Exception` clause catches everything the `try`-block raises, logs it, and
returns normally with nothing published, so `callback` itself never raises. -/
def callback (ctx : MessageContext) : Except PyErr (List PublishedMessage) :=
  match callbackTry ctx with
  | Except.ok pubs => Except.ok pubs
  | Except.error _ => Except.ok []

/-- Embedding of the consume loop entered by `channel.start_consuming`
(rag_prompt_processor.py lines 224-244): deliveries are handled in order; an
exception propagating out of the handler tears the loop down, ending consumption. -/
def start_consuming (handler : MessageContext → Except PyErr (List PublishedMessage)) :
    List MessageContext → List (List PublishedMessage)
  | [] => []
  | ctx :: rest =>
    match handler ctx with
    | Except.ok pubs => pubs :: start_consuming handler rest
    | Except.error _ => []

/-- A call made by the Query Orchestrator to one of its external collaborators. -/
inductive ClientCall where
  | generate : List Char → ClientCall
  | retrieve : List Char → ClientCall
deriving DecidableEq

/-- Modelled from the spec: step 4 of the Query Orchestrator concatenates the
surviving results' content into a single context string (empty if none survive).
Nothing in src/ concatenates filtered retrieval results for the orchestrator. -/
def specConcatContents (results : List SummarizerSearchResult) : List Char :=
  (results.map (fun r => r.content)).foldr (fun a b => a ++ b) []

/-- Modelled from the spec: the Query Orchestrator state machine of spec section
4.2 (`Init → DirectAttempt → Verify → (Answered Done | Unanswered → Retrieve →
Reground → Done)`).  The orchestrator that wires the pipeline together is not
present under src/ — `was_query_likely_answered`, the prompt builders and the
submit functions of llama_service.py have no caller there — so the control flow
is taken from the spec's steps 1-5, with the relevance threshold and maximum
result count as configuration parameters and the Generation and Retrieval
Clients as the opaque parameters `gen` and `ret`.  The building blocks
(`submit_query_without_context_to_llama`, `was_query_likely_answered`,
`submit_query_with_context_to_llama`) are the embeddings of llama_service.py.
The second component of the result records, in order, the calls issued to the
external clients. -/
def orchestrate (gen : List Char → List Char)
    (ret : List Char → List SummarizerSearchResult)
    (threshold : ℚ) (maxResults : Nat) (query : List Char) :
    List Char × List ClientCall :=
  let direct := submit_query_without_context_to_llama gen query
  if was_query_likely_answered gen query direct then
    (direct,
     [ClientCall.generate (create_prompt_for_llama query),
      ClientCall.generate (create_response_test_prompt_for_llama query direct)])
  else
    let survivors := ((ret query).filter (fun r => decide (threshold ≤ scoreOrZero r))).take maxResults
    let context := specConcatContents survivors
    (submit_query_with_context_to_llama gen query context,
     [ClientCall.generate (create_prompt_for_llama query),
      ClientCall.generate (create_response_test_prompt_for_llama query direct),
      ClientCall.retrieve query,
      ClientCall.generate (create_prompt_restricted_to_context_info_for_llama query context)])

/-- The extraction the spec's words describe for the marker branch: the text
following the LAST occurrence of `m` (an occurrence further right takes
precedence over one at the current position).  This is the refinement target the
code's first-occurrence split is compared against. -/
def specAfterLast (m : List Char) : List Char → Option (List Char)
  | [] => if m == [] then some [] else none
  | c :: cs =>
    match specAfterLast m cs with
    | some r => some r
    | none =>
      if listStartsWith m (c :: cs) then some ((c :: cs).drop m.length) else none

theorem listStartsWith_iff (p : List Char) : ∀ s : List Char,
    listStartsWith p s = true ↔ ∃ t, s = p ++ t := by
  induction p with
  | nil =>
    intro s
    simp [listStartsWith]
  | cons a ps ih =>
    intro s
    cases s with
    | nil => simp [listStartsWith]
    | cons c cs =>
      simp only [listStartsWith, Bool.and_eq_true, beq_iff_eq, ih cs, List.cons_append,
        List.cons.injEq]
      constructor
      · rintro ⟨rfl, t, rfl⟩
        exact ⟨t, rfl, rfl⟩
      · rintro ⟨t, rfl, rfl⟩
        exact ⟨rfl, t, rfl⟩

theorem afterFirst_first (m : List Char) (hm : m ≠ []) :
    ∀ (a s b : List Char), s = a ++ m ++ b →
      (∀ a2 b2, s = a2 ++ m ++ b2 → a.length ≤ a2.length) →
      afterFirst m s = some b := by
  intro a
  induction a with
  | nil =>
    intro s b hs _
    subst hs
    cases m with
    | nil => exact absurd rfl hm
    | cons cm ms =>
      have hform : [] ++ (cm :: ms) ++ b = cm :: (ms ++ b) := by simp
      rw [hform]
      have hsw : listStartsWith (cm :: ms) (cm :: (ms ++ b)) = true := by
        rw [listStartsWith_iff]
        exact ⟨b, by simp⟩
      simp only [afterFirst]
      rw [hsw]
      simp only [if_true]
      congr 1
      have hlen : (cm :: ms).length = (cm :: ms).length := rfl
      calc (cm :: (ms ++ b)).drop (cm :: ms).length
          = ((cm :: ms) ++ b).drop (cm :: ms).length := by simp
        _ = b := List.drop_left _ _
  | cons c a0 ih =>
    intro s b hs hmin
    subst hs
    have hform : (c :: a0) ++ m ++ b = c :: (a0 ++ m ++ b) := by simp
    rw [hform]
    have hns : listStartsWith m (c :: (a0 ++ m ++ b)) = false := by
      by_contra hcon
      have htrue : listStartsWith m (c :: (a0 ++ m ++ b)) = true := by
        cases h : listStartsWith m (c :: (a0 ++ m ++ b)) with
        | true => rfl
        | false => exact absurd h hcon
      obtain ⟨t, ht⟩ := (listStartsWith_iff m _).1 htrue
      have := hmin [] t (by simpa using ht)
      simp at this
    simp only [afterFirst]
    rw [hns]
    simp only [Bool.false_eq_true, if_false]
    refine ih (a0 ++ m ++ b) b rfl ?_
    intro a2 b2 h2
    have := hmin (c :: a2) b2 (by simp [h2])
    simpa using this

theorem occursIn_iff (m : List Char) : ∀ s : List Char,
    occursIn m s = true ↔ ∃ a b, s = a ++ m ++ b := by
  intro s
  induction s with
  | nil =>
    by_cases hm : m = []
    · subst hm
      simp [occursIn, afterFirst]
    · have hbeq : (m == []) = false := by
        cases h : m == [] with
        | true => exact absurd (by simpa using h) hm
        | false => rfl
      simp only [occursIn, afterFirst, hbeq, if_false, Option.isSome_none,
        Bool.false_eq_true, false_iff]
      rintro ⟨a, b, hab⟩
      have : a = [] ∧ m ++ b = [] := by
        constructor
        · cases a with
          | nil => rfl
          | cons x xs => simp at hab
        · cases a with
          | nil => simpa using hab.symm
          | cons x xs => simp at hab
      rcases this with ⟨_, h2⟩
      exact hm (List.append_eq_nil.1 h2).1
  | cons c cs ih =>
    by_cases hsw : listStartsWith m (c :: cs) = true
    · simp only [occursIn, afterFirst, hsw, if_true, Option.isSome_some, true_iff]
      obtain ⟨t, ht⟩ := (listStartsWith_iff m _).1 hsw
      exact ⟨[], t, by simpa using ht⟩
    · have hswf : listStartsWith m (c :: cs) = false := by
        cases h : listStartsWith m (c :: cs) with
        | true => exact absurd h hsw
        | false => rfl
      simp only [occursIn, afterFirst, hswf, Bool.false_eq_true, if_false]
      rw [show (afterFirst m cs).isSome = occursIn m cs from rfl, ih]
      constructor
      · rintro ⟨a, b, rfl⟩
        exact ⟨c :: a, b, by simp⟩
      · rintro ⟨a, b, hab⟩
        cases a with
        | nil =>
          exfalso
          apply hsw
          rw [listStartsWith_iff]
          exact ⟨b, by simpa using hab⟩
        | cons x xs =>
          rw [List.cons_append, List.cons_append, List.cons.injEq] at hab
          exact ⟨xs, b, hab.2⟩

theorem afterFirst_none_of_not_occursIn (m s : List Char)
    (h : occursIn m s = false) : afterFirst m s = none := by
  cases hval : afterFirst m s with
  | none => rfl
  | some r =>
    exfalso
    have : occursIn m s = true := by
      unfold occursIn
      rw [hval]
      rfl
    rw [h] at this
    exact Bool.false_ne_true this

theorem exists_dropWhile_decomp (p : Char → Bool) (l : List Char) :
    ∃ u, l = u ++ l.dropWhile p := by
  induction l with
  | nil => exact ⟨[], rfl⟩
  | cons c cs ih =>
    by_cases h : p c = true
    · obtain ⟨u, hu⟩ := ih
      refine ⟨c :: u, ?_⟩
      rw [List.dropWhile_cons_of_pos h, List.cons_append]
      exact congrArg (c :: ·) hu
    · have hf : p c = false := by
        cases hpc : p c with
        | true => exact absurd hpc h
        | false => rfl
      exact ⟨[], by rw [List.dropWhile_cons_of_neg (by simp [hf]), List.nil_append]⟩

theorem exists_pyStrip_decomp (s : List Char) : ∃ u v, s = u ++ pyStrip s ++ v := by
  obtain ⟨u, hu⟩ := exists_dropWhile_decomp isPySpace s
  obtain ⟨w, hw⟩ := exists_dropWhile_decomp isPySpace (s.dropWhile isPySpace).reverse
  have h2 : s.dropWhile isPySpace = pyStrip s ++ w.reverse := by
    have h3 := congrArg List.reverse hw
    rw [List.reverse_reverse, List.reverse_append] at h3
    exact h3
  refine ⟨u, w.reverse, ?_⟩
  calc s = u ++ s.dropWhile isPySpace := hu
    _ = u ++ (pyStrip s ++ w.reverse) := by rw [h2]
    _ = u ++ pyStrip s ++ w.reverse := by rw [List.append_assoc]

theorem exists_eotStripped_decomp (x : List Char) :
    ∃ u v, x = u ++ eotStripped x ++ v := by
  unfold eotStripped
  by_cases h : listEndsWith eot_token x = true
  · rw [if_pos h]
    obtain ⟨u, v, huv⟩ := exists_pyStrip_decomp (x.take (x.length - eot_token.length))
    refine ⟨u, v ++ x.drop (x.length - eot_token.length), ?_⟩
    calc x = x.take (x.length - eot_token.length) ++ x.drop (x.length - eot_token.length) :=
          (List.take_append_drop _ _).symm
      _ = (u ++ pyStrip (x.take (x.length - eot_token.length)) ++ v)
            ++ x.drop (x.length - eot_token.length) := by
          conv_lhs => rw [huv]
      _ = u ++ pyStrip (x.take (x.length - eot_token.length))
            ++ (v ++ x.drop (x.length - eot_token.length)) := by
          simp [List.append_assoc]
  · rw [if_neg h]
    exact ⟨[], [], by simp⟩

theorem occursIn_of_part (m t s u v : List Char) (hs : s = u ++ t ++ v)
    (h : occursIn m t = true) : occursIn m s = true := by
  obtain ⟨a, b, hab⟩ := (occursIn_iff m t).1 h
  rw [occursIn_iff]
  exact ⟨u ++ a, b ++ v, by rw [hs, hab]; simp [List.append_assoc]⟩

theorem occursIn_eotStripped_false (m x : List Char)
    (h : occursIn m x = false) : occursIn m (eotStripped x) = false := by
  cases hval : occursIn m (eotStripped x) with
  | false => rfl
  | true =>
    exfalso
    obtain ⟨u, v, huv⟩ := exists_eotStripped_decomp x
    have := occursIn_of_part m (eotStripped x) x u v huv hval
    rw [h] at this
    exact Bool.false_ne_true this

theorem getLast?_cons_or (c : Char) (a : List Char) (prev : Option Char) :
    ((c :: a).getLast?).or prev = (a.getLast?).or (some c) := by
  induction a generalizing c with
  | nil => simp
  | cons d ds ih =>
    rw [List.getLast?_cons_cons]
    have hne : d :: ds ≠ [] := by simp
    have hsome : ∃ y, (d :: ds).getLast? = some y := by
      cases hv : (d :: ds).getLast? with
      | none => exact absurd (List.getLast?_eq_none_iff.1 hv) hne
      | some y => exact ⟨y, rfl⟩
    obtain ⟨y, hy⟩ := hsome
    rw [hy]
    rfl

theorem yesAt_iff (prev : Option Char) (l : List Char) :
    yesAt prev l = true ↔
      ∃ y e z b, l = y :: e :: z :: b
        ∧ y.toLower = 'y' ∧ e.toLower = 'e' ∧ z.toLower = 's'
        ∧ nonWordBefore prev = true ∧ nonWordHead b = true := by
  match l with
  | [] => simp [yesAt]
  | [_] => simp [yesAt]
  | [_, _] => simp [yesAt]
  | y :: e :: z :: b =>
    constructor
    · intro h
      simp only [yesAt, Bool.and_eq_true, beq_iff_eq] at h
      exact ⟨y, e, z, b, rfl, h.1.1.1.1, h.1.1.1.2, h.1.1.2, h.1.2, h.2⟩
    · rintro ⟨y2, e2, z2, b2, heq, h1, h2, h3, h4, h5⟩
      injection heq with hy heq2
      injection heq2 with he heq3
      injection heq3 with hz hb
      subst hy
      subst he
      subst hz
      subst hb
      simp only [yesAt, Bool.and_eq_true, beq_iff_eq]
      exact ⟨⟨⟨⟨h1, h2⟩, h3⟩, h4⟩, h5⟩

theorem searchYesFrom_iff (l : List Char) : ∀ prev : Option Char,
    searchYesFrom prev l = true ↔
      ∃ a y e z b, l = a ++ y :: e :: z :: b
        ∧ y.toLower = 'y' ∧ e.toLower = 'e' ∧ z.toLower = 's'
        ∧ nonWordBefore ((a.getLast?).or prev) = true ∧ nonWordHead b = true := by
  induction l with
  | nil =>
    intro prev
    simp only [searchYesFrom, Bool.false_eq_true, false_iff]
    rintro ⟨a, y, e, z, b, hab, -⟩
    exact absurd hab.symm (by simp)
  | cons c cs ih =>
    intro prev
    simp only [searchYesFrom, Bool.or_eq_true]
    rw [yesAt_iff, ih (some c)]
    constructor
    · rintro (⟨y, e, z, b, heq, h1, h2, h3, h4, h5⟩ | ⟨a, y, e, z, b, heq, h1, h2, h3, h4, h5⟩)
      · exact ⟨[], y, e, z, b, by simpa using heq, h1, h2, h3, by simpa using h4, h5⟩
      · refine ⟨c :: a, y, e, z, b, by simp [heq], h1, h2, h3, ?_, h5⟩
        rwa [getLast?_cons_or]
    · rintro ⟨a, y, e, z, b, heq, h1, h2, h3, h4, h5⟩
      cases a with
      | nil =>
        left
        rw [List.nil_append] at heq
        exact ⟨y, e, z, b, heq, h1, h2, h3, by simpa using h4, h5⟩
      | cons c2 a0 =>
        right
        rw [List.cons_append, List.cons.injEq] at heq
        obtain ⟨hc, ht⟩ := heq
        subst hc
        refine ⟨a0, y, e, z, b, ht, h1, h2, h3, ?_, h5⟩
        rwa [getLast?_cons_or] at h4

theorem nonWordBefore_getLast?_iff (a : List Char) :
    nonWordBefore ((a.getLast?).or none) = true
      ↔ ∀ c, a.getLast? = some c → isWordChar c = false := by
  rw [Option.or_none]
  cases h : a.getLast? with
  | none => simp [nonWordBefore]
  | some c => simp [nonWordBefore, Bool.not_eq_true']

theorem nonWordHead_iff (b : List Char) :
    nonWordHead b = true ↔ ∀ c, b.head? = some c → isWordChar c = false := by
  cases b with
  | nil => simp [nonWordHead]
  | cons c cs => simp [nonWordHead, Bool.not_eq_true']

/-- C4, counterexample: `ExtractAssistantReply` (`format_output_from_llama`) is
not idempotent.  On a raw output carrying two assistant-segment markers the
first application keeps everything after the first marker — including the
second marker — so the second application strips again and the results differ. -/
theorem c4_not_idempotent :
    format_output_from_llama (format_output_from_llama
        (assistant_keyword ++ "A".data ++ assistant_keyword ++ "B".data))
      ≠ format_output_from_llama
        (assistant_keyword ++ "A".data ++ assistant_keyword ++ "B".data) := by
  decide

/-- C4, amended: `ExtractAssistantReply` is idempotent on every raw output whose
extraction result neither ends with the end-of-sequence token nor still
contains an assistant-segment marker (which is every realistic engine output);
idempotence fails in general because the code splits at the first of several
markers and strips at most one trailing end-of-sequence token. -/
theorem c4_idempotent_on_stable_outputs (x : List Char)
    (h1 : listEndsWith eot_token (format_output_from_llama x) = false)
    (h2 : occursIn assistant_keyword (format_output_from_llama x) = false) :
    format_output_from_llama (format_output_from_llama x) = format_output_from_llama x := by
  have he : eotStripped (format_output_from_llama x) = format_output_from_llama x := by
    unfold eotStripped
    rw [h1]
    simp
  have h3 : afterFirst assistant_keyword (format_output_from_llama x) = none :=
    afterFirst_none_of_not_occursIn _ _ h2
  have hout : format_output_from_llama (format_output_from_llama x)
      = match afterFirst assistant_keyword (eotStripped (format_output_from_llama x)) with
        | some rest => pyStrip rest
        | none => eotStripped (format_output_from_llama x) := rfl
  rw [hout, he, h3]

/-- Witness for `c4_idempotent_on_stable_outputs` at the raw output "hello". -/
theorem c4_idempotent_on_stable_outputs_witness :
    listEndsWith eot_token (format_output_from_llama "hello".data) = false
    ∧ occursIn assistant_keyword (format_output_from_llama "hello".data) = false
    ∧ format_output_from_llama (format_output_from_llama "hello".data)
        = format_output_from_llama "hello".data :=
  ⟨by decide, by decide, c4_idempotent_on_stable_outputs "hello".data (by decide) (by decide)⟩

/-- C5, counterexample: the claim says the text following the LAST occurrence of
the assistant marker is returned, but the code (`split(assistant_keyword, 1)[1]`)
takes the text after the FIRST occurrence.  On a raw output with two markers the
spec-described last-occurrence extraction gives "B" while the code returns
"A" followed by the second marker and "B". -/
theorem c5_not_last_occurrence :
    specAfterLast assistant_keyword
        (assistant_keyword ++ "A".data ++ assistant_keyword ++ "B".data) = some ("B".data)
    ∧ format_output_from_llama
        (assistant_keyword ++ "A".data ++ assistant_keyword ++ "B".data)
      ≠ pyStrip ("B".data) :=
  ⟨by decide, by decide⟩

/-- C5, amended: for every raw output that (after end-of-sequence removal)
contains the assistant-segment marker, `ExtractAssistantReply` returns exactly
the text following the FIRST occurrence of that marker, trimmed of surrounding
whitespace.  The first occurrence is characterized as the decomposition with the
shortest possible text before the marker. -/
theorem c5_first_occurrence (x a b : List Char)
    (hdec : eotStripped x = a ++ assistant_keyword ++ b)
    (hfirst : ∀ a2 b2, eotStripped x = a2 ++ assistant_keyword ++ b2 → a.length ≤ a2.length) :
    format_output_from_llama x = pyStrip b := by
  have h := afterFirst_first assistant_keyword (by decide) a (eotStripped x) b hdec hfirst
  have hout : format_output_from_llama x
      = match afterFirst assistant_keyword (eotStripped x) with
        | some rest => pyStrip rest
        | none => eotStripped x := rfl
  rw [hout, h]

/-- Witness for `c5_first_occurrence`: a raw output that is the marker followed
by padded text extracts to the trimmed text. -/
theorem c5_first_occurrence_witness :
    format_output_from_llama (assistant_keyword ++ "  hi  ".data) = pyStrip ("  hi  ".data) :=
  c5_first_occurrence (assistant_keyword ++ "  hi  ".data) [] "  hi  ".data (by decide)
    (fun _ _ _ => Nat.zero_le _)

/-- C6, counterexample: on a raw output with no assistant-segment marker and no
trailing end-of-sequence token, the code returns the raw output UNCHANGED — the
fallback branch performs no strip — while the claim says it is returned trimmed
of surrounding whitespace. -/
theorem c6_fallback_not_trimmed :
    occursIn assistant_keyword "  hi  ".data = false
    ∧ format_output_from_llama "  hi  ".data = "  hi  ".data
    ∧ format_output_from_llama "  hi  ".data ≠ pyStrip "  hi  ".data :=
  ⟨by decide, by decide, by decide⟩

/-- C6, amended: for every raw output containing no assistant-segment marker,
`ExtractAssistantReply` returns the raw output unchanged when it does not end
with the end-of-sequence token, and otherwise returns it with that trailing
token removed and surrounding whitespace trimmed (this is `eotStripped`); being
a total function it never raises. -/
theorem c6_no_marker_fallback (x : List Char)
    (h : occursIn assistant_keyword x = false) :
    format_output_from_llama x = eotStripped x := by
  have h2 := occursIn_eotStripped_false assistant_keyword x h
  have h3 := afterFirst_none_of_not_occursIn _ _ h2
  have hout : format_output_from_llama x
      = match afterFirst assistant_keyword (eotStripped x) with
        | some rest => pyStrip rest
        | none => eotStripped x := rfl
  rw [hout, h3]

/-- Witness for `c6_no_marker_fallback` at the raw output "ok". -/
theorem c6_no_marker_fallback_witness :
    occursIn assistant_keyword "ok".data = false
    ∧ format_output_from_llama "ok".data = eotStripped "ok".data :=
  ⟨by decide, c6_no_marker_fallback "ok".data (by decide)⟩

/-- C8: for every verification-reply string (the engine reply to the
verification prompt, after extraction), `was_query_likely_answered` decides
Answered (`true`) exactly when the string contains the token "yes" as a whole
word, matched case-insensitively; otherwise the outcome is Unanswered. -/
theorem c8_whole_word_yes (gen : List Char → List Char) (query reply : List Char) :
    was_query_likely_answered gen query reply = true
      ↔ ContainsWholeWordYes
          (submit_prompt_to_llama gen (create_response_test_prompt_for_llama query reply)) := by
  unfold was_query_likely_answered reSearchYes ContainsWholeWordYes
  rw [searchYesFrom_iff]
  constructor
  · rintro ⟨a, y, e, z, b, hab, h1, h2, h3, h4, h5⟩
    exact ⟨a, y, e, z, b, hab, h1, h2, h3,
      (nonWordBefore_getLast?_iff a).1 h4, (nonWordHead_iff b).1 h5⟩
  · rintro ⟨a, y, e, z, b, hab, h1, h2, h3, h4, h5⟩
    exact ⟨a, y, e, z, b, hab, h1, h2, h3,
      (nonWordBefore_getLast?_iff a).2 h4, (nonWordHead_iff b).2 h5⟩

/-- C1 (spec-modelled orchestrator): for every query, if the verification step
decides Answered, the pipeline never invokes the Retrieval Client — no
`ClientCall.retrieve` appears in the call trace — and the direct answer is
returned unchanged. -/
theorem c1_short_circuit (gen : List Char → List Char)
    (ret : List Char → List SummarizerSearchResult) (threshold : ℚ) (maxResults : Nat)
    (query : List Char)
    (h : was_query_likely_answered gen query
          (submit_query_without_context_to_llama gen query) = true) :
    (orchestrate gen ret threshold maxResults query).1
        = submit_query_without_context_to_llama gen query
    ∧ ∀ q2, ClientCall.retrieve q2 ∉ (orchestrate gen ret threshold maxResults query).2 := by
  have hres : orchestrate gen ret threshold maxResults query
      = (submit_query_without_context_to_llama gen query,
         [ClientCall.generate (create_prompt_for_llama query),
          ClientCall.generate (create_response_test_prompt_for_llama query
            (submit_query_without_context_to_llama gen query))]) := by
    unfold orchestrate
    simp only [h, if_true]
  constructor
  · rw [hres]
  · intro q2
    rw [hres]
    simp

/-- Witness for `c1_short_circuit`: an engine that always replies "Yes" makes the
verification succeed, and the orchestrator then returns the direct answer with a
retrieval-free trace. -/
theorem c1_short_circuit_witness :
    (orchestrate (fun _ => "Yes".data) (fun _ => []) ((3 : ℚ) / 10) 16 "hi".data).1
        = submit_query_without_context_to_llama (fun _ => "Yes".data) "hi".data
    ∧ ∀ q2, ClientCall.retrieve q2
        ∉ (orchestrate (fun _ => "Yes".data) (fun _ => []) ((3 : ℚ) / 10) 16 "hi".data).2 :=
  c1_short_circuit (fun _ => "Yes".data) (fun _ => []) ((3 : ℚ) / 10) 16 "hi".data (by decide)

theorem callbackTry_pubs (ctx : MessageContext) (pubs : List PublishedMessage)
    (h : callbackTry ctx = Except.ok pubs) :
    pubs.length ≤ 1 ∧ ∀ m ∈ pubs, m.correlation_id = ctx.correlation_id := by
  unfold callbackTry at h
  repeat' split at h
  all_goals simp_all
  subst h
  simp

/-- C2: for every inbound message, every reply the Gateway callback publishes
carries a correlation token equal to the inbound message's correlation token,
and at most one reply is published per inbound message. -/
theorem c2_correlation (ctx : MessageContext) (pubs : List PublishedMessage)
    (h : callback ctx = Except.ok pubs) :
    pubs.length ≤ 1 ∧ ∀ m ∈ pubs, m.correlation_id = ctx.correlation_id := by
  unfold callback at h
  split at h
  · injection h with h2
    subst h2
    exact callbackTry_pubs ctx _ (by assumption)
  · injection h with h2
    subst h2
    simp

/-- Witness for `c2_correlation`: a message that decodes, processes and publishes
successfully yields exactly one reply stamped with the inbound correlation id. -/
theorem c2_correlation_witness :
    ([{ exchange := []
        routing_key := "rq".data
        body := "ans".data
        correlation_id := some ("c1".data)
        delivery_mode := 1 }] : List PublishedMessage).length ≤ 1
    ∧ ∀ m ∈ ([{ exchange := []
                routing_key := "rq".data
                body := "ans".data
                correlation_id := some ("c1".data)
                delivery_mode := 1 }] : List PublishedMessage),
        m.correlation_id
          = ({ decodeResult := Except.ok ("hi".data)
               reply_to := some ("rq".data)
               correlation_id := some ("c1".data)
               processResult := fun _ => Except.ok ("ans".data)
               publishResult := Except.ok () } : MessageContext).correlation_id :=
  c2_correlation
    { decodeResult := Except.ok ("hi".data)
      reply_to := some ("rq".data)
      correlation_id := some ("c1".data)
      processResult := fun _ => Except.ok ("ans".data)
      publishResult := Except.ok () }
    [{ exchange := []
       routing_key := "rq".data
       body := "ans".data
       correlation_id := some ("c1".data)
       delivery_mode := 1 }]
    rfl

/-- C9: errors raised while processing one message (undecodable body,
orchestrator failure, publish failure) are caught inside the per-message
handler: `callback` always returns normally, with nothing published for the
failed message, so the consume loop handles every delivered message instead of
tearing down early. -/
theorem c9_failure_containment (ctxs : List MessageContext) :
    (start_consuming callback ctxs).length = ctxs.length
    ∧ ∀ ctx e, callbackTry ctx = Except.error e → callback ctx = Except.ok [] := by
  constructor
  · induction ctxs with
    | nil => rfl
    | cons c cs ih =>
      have hok : ∃ p, callback c = Except.ok p := by
        unfold callback
        cases callbackTry c with
        | ok p => exact ⟨p, rfl⟩
        | error e => exact ⟨[], rfl⟩
      obtain ⟨p, hp⟩ := hok
      unfold start_consuming
      rw [hp]
      simp [ih]
  · intro ctx e he
    unfold callback
    rw [he]

/-- Witness for `c9_failure_containment`: a message whose body fails to decode is
contained — the loop still counts it as handled and nothing is published. -/
theorem c9_failure_containment_witness :
    (start_consuming callback
        [{ decodeResult := Except.error ("UnicodeDecodeError".data)
           reply_to := some ("rq".data)
           correlation_id := some ("c1".data)
           processResult := fun _ => Except.ok ("ans".data)
           publishResult := Except.ok () }]).length
      = ([{ decodeResult := Except.error ("UnicodeDecodeError".data)
            reply_to := some ("rq".data)
            correlation_id := some ("c1".data)
            processResult := fun _ => Except.ok ("ans".data)
            publishResult := Except.ok () }] : List MessageContext).length
    ∧ callback
        { decodeResult := Except.error ("UnicodeDecodeError".data)
          reply_to := some ("rq".data)
          correlation_id := some ("c1".data)
          processResult := fun _ => Except.ok ("ans".data)
          publishResult := Except.ok () }
      = Except.ok [] :=
  ⟨(c9_failure_containment _).1,
   (c9_failure_containment []).2
     { decodeResult := Except.error ("UnicodeDecodeError".data)
       reply_to := some ("rq".data)
       correlation_id := some ("c1".data)
       processResult := fun _ => Except.ok ("ans".data)
       publishResult := Except.ok () }
     ("UnicodeDecodeError".data) rfl⟩

/-- C3 (code bug): the claim — and spec sections 4.2/7 — say a Retrieval Client
failure, or zero surviving results, degrades gracefully to grounded generation
with an empty context string.  In the source, `fetch_search_results` does return
`[]` on failure, but `format_search_results_for_llama` then executes
`logging.warnr(...)` (rag_prompt_processor.py line 41), a misspelling of
`logging.warning` that raises `AttributeError`, so the pipeline aborts instead of
returning a grounded answer: `process_prompt` propagates the exception for every
failed retrieval and for every empty result list. -/
theorem c3_retrieval_failure_aborts (gen : List Char → List Char) (prompt e : List Char) :
    process_prompt gen (Except.error e) prompt = Except.error warnrAttributeError
    ∧ process_prompt gen (Except.ok []) prompt = Except.error warnrAttributeError
    ∧ format_search_results_for_llama [] = Except.error warnrAttributeError :=
  ⟨rfl, rfl, rfl⟩

/-- C7, counterexample: the filtering step of `search_searxng` has the threshold
1.5 hard-coded (searxng_summarizer.py line 109) — there is no 0.3 threshold to
configure — so on a result list with scores [0.9, 0.4, 0.1] zero results
survive, not the two the claim asserts. -/
theorem c7_scores_counterexample :
    search_searxng (Except.ok
      [{ title := "t1".data, url := "u1".data, content := "c1".data, score := some ((9 : ℚ) / 10) },
       { title := "t2".data, url := "u2".data, content := "c2".data, score := some ((4 : ℚ) / 10) },
       { title := "t3".data, url := "u3".data, content := "c3".data, score := some ((1 : ℚ) / 10) }])
      = Except.ok [] := by
  unfold search_searxng
  norm_num [List.filter, scoreOrZero]

/-- C7, amended: the filtering step keeps exactly those results whose relevance
score (0 when the field is absent) is at least the hard-coded threshold 1.5,
preserving their original (descending-relevance) order; with scores
[0.9, 0.4, 0.1] none survive, while e.g. with [1.9, 1.6, 0.1] exactly the first
two survive, in that order. -/
theorem c7_threshold_filter (results filtered : List SummarizerSearchResult)
    (h : search_searxng (Except.ok results) = Except.ok filtered) :
    filtered.Sublist results
    ∧ ∀ r, r ∈ filtered ↔ r ∈ results ∧ (3 : ℚ) / 2 ≤ scoreOrZero r := by
  unfold search_searxng at h
  injection h with h2
  subst h2
  constructor
  · exact List.filter_sublist results
  · intro r
    rw [List.mem_filter]
    simp only [decide_eq_true_eq]

/-- Witness for `c7_threshold_filter` on scores [1.9, 1.6, 0.1]: exactly the two
results at or above 1.5 survive, in their original order. -/
theorem c7_threshold_filter_witness :
    ([{ title := "t1".data, url := "u1".data, content := "c1".data, score := some ((19 : ℚ) / 10) },
      { title := "t2".data, url := "u2".data, content := "c2".data, score := some ((16 : ℚ) / 10) }]
        : List SummarizerSearchResult).Sublist
      [{ title := "t1".data, url := "u1".data, content := "c1".data, score := some ((19 : ℚ) / 10) },
       { title := "t2".data, url := "u2".data, content := "c2".data, score := some ((16 : ℚ) / 10) },
       { title := "t3".data, url := "u3".data, content := "c3".data, score := some ((1 : ℚ) / 10) }]
    ∧ ∀ r, r ∈ ([{ title := "t1".data, url := "u1".data, content := "c1".data, score := some ((19 : ℚ) / 10) },
                 { title := "t2".data, url := "u2".data, content := "c2".data, score := some ((16 : ℚ) / 10) }]
                  : List SummarizerSearchResult)
        ↔ r ∈ ([{ title := "t1".data, url := "u1".data, content := "c1".data, score := some ((19 : ℚ) / 10) },
                { title := "t2".data, url := "u2".data, content := "c2".data, score := some ((16 : ℚ) / 10) },
                { title := "t3".data, url := "u3".data, content := "c3".data, score := some ((1 : ℚ) / 10) }]
                 : List SummarizerSearchResult)
            ∧ (3 : ℚ) / 2 ≤ scoreOrZero r :=
  c7_threshold_filter _ _ (by unfold search_searxng; norm_num [List.filter, scoreOrZero])

/-- C10: in the search-result filter of `search_searxng`, a record with no
relevance-score field is treated as having score 0 and is therefore always
excluded from the filtered results (the threshold in force, 1.5, is positive),
for every input result list. -/
theorem c10_missing_score_excluded (results filtered : List SummarizerSearchResult)
    (r : SummarizerSearchResult) (hscore : r.score = none)
    (h : search_searxng (Except.ok results) = Except.ok filtered) :
    scoreOrZero r = 0 ∧ r ∉ filtered := by
  have hz : scoreOrZero r = 0 := by
    unfold scoreOrZero
    rw [hscore]
    rfl
  refine ⟨hz, ?_⟩
  unfold search_searxng at h
  injection h with h2
  subst h2
  intro hmem
  rw [List.mem_filter] at hmem
  have hge := of_decide_eq_true hmem.2
  rw [hz] at hge
  norm_num at hge

/-- Witness for `c10_missing_score_excluded`: a scoreless record is dropped even
though a scored companion survives. -/
theorem c10_missing_score_excluded_witness :
    scoreOrZero { title := "t".data, url := "u".data, content := "c".data, score := none } = 0
    ∧ ({ title := "t".data, url := "u".data, content := "c".data, score := none }
        : SummarizerSearchResult)
      ∉ [({ title := "t2".data, url := "u2".data, content := "c2".data, score := some 2 }
        : SummarizerSearchResult)] :=
  c10_missing_score_excluded
    [{ title := "t".data, url := "u".data, content := "c".data, score := none },
     { title := "t2".data, url := "u2".data, content := "c2".data, score := some 2 }]
    [{ title := "t2".data, url := "u2".data, content := "c2".data, score := some 2 }]
    { title := "t".data, url := "u".data, content := "c".data, score := none }
    rfl (by unfold search_searxng; norm_num [List.filter, scoreOrZero])
